import Mathlib

/-!
# Verification of akamai-sdk-go core logic

A shallow embedding of the cookie-generation SDK: the stop-signal evaluator
(`IsCookieValid`), the obfuscation decoder (`FromHexString`), the markup
extraction functions (pixel HTML variable, pixel script URL, SDK script path,
pixel script variable), the version/static-shape detectors, and the
`Session.Generate` orchestrator with its two workflow branches.

Go strings are modelled as `String`/`List Char`; Go `int`/`int64` as `Int`
with explicit 64-bit bounds where `strconv` enforces them; fallible calls as
`Option`/`Except`.  The caller-supplied HTTP executor and cookie reader, the
remote generation delegate, and `net/url.Parse` are collaborator boundaries:
they are modelled as oracle functions that may depend on the full history of
external calls made so far, which captures arbitrary deterministic stateful
behaviour (e.g. an evolving cookie jar).  Regular-expression matching is
implemented directly for each concrete pattern, following Go's leftmost,
backtracking-priority (Perl-like) submatch semantics; case-insensitive
matching is modelled over ASCII.
-/

namespace Akamai

/-- ASCII word character, Go regexp `\w` = `[0-9A-Za-z_]`. -/
def isWordChar (c : Char) : Bool :=
  c.isDigit || ('a' ≤ c && c ≤ 'z') || ('A' ≤ c && c ≤ 'Z') || c = '_'

/-- Go `strings.Split(s, sep)` for a single-character separator:
splitting the empty string yields `[""]`, and a separator occurrence at the
end yields a trailing empty field. -/
def splitChar (sep : Char) : List Char → List (List Char)
  | [] => [[]]
  | c :: r =>
    if c = sep then [] :: splitChar sep r
    else
      match splitChar sep r with
      | [] => [[c]]
      | g :: gs => (c :: g) :: gs

/-- Strip an optional leading sign, as in Go `strconv.ParseInt`:
returns (isNegative, remaining digits). -/
def stripSign (s : List Char) : Bool × List Char :=
  match s with
  | [] => (false, [])
  | c :: r => if c = '-' then (true, r) else if c = '+' then (false, r) else (false, s)

/-- Numeric value of a list of ASCII decimal digits. -/
def digitsVal (l : List Char) : Nat :=
  l.foldl (fun a c => a * 10 + (c.toNat - 48)) 0

/-- Go `strconv.Atoi` (= `ParseInt(s, 10, 0)` on a 64-bit platform):
an optional sign, then one or more ASCII decimal digits, value within
the signed 64-bit range; `none` models a non-nil error. -/
def goAtoi (s : List Char) : Option Int :=
  let (neg, ds) := stripSign s
  if ds.isEmpty || !(ds.all Char.isDigit) then none
  else
    let v : Int := (digitsVal ds : Nat)
    let v := if neg then -v else v
    if v < -(2 ^ 63) || v > 2 ^ 63 - 1 then none else some v

/-- `IsCookieValid` (stop-signal evaluator): split the `_abck` cookie value
on `~`; with fewer than two fields report invalid; otherwise parse the second
field with `Atoi`, substituting `-1` on parse failure, and report valid iff
the threshold is not `-1` and `requestCount >= threshold`. -/
def IsCookieValid (value : String) (requestCount : Int) : Bool :=
  let parts := splitChar '~' value.data
  if parts.length < 2 then false
  else
    let requestThreshold := (goAtoi (parts.getD 1 [])).getD (-1)
    (requestThreshold != -1) && decide (requestThreshold ≤ requestCount)

/-- `HttpReqOp`: the enumerated tag identifying why an HTTP request is
executed through a `DoHttpReqFunc`. -/
inductive HttpReqOp where
  | opGetPage
  | opGetSdkScript
  | opPostSensorData
  | opGetPixelChallengeScript
  | opPostPixelPayload
deriving DecidableEq, Repr

/-- Error values produced by the SDK.  `transport` stands for an error value
returned by the caller-supplied HTTP executor; `parseFail` for a `strconv`
error on the given offending string; `detail` for a `fmt.Errorf` diagnostic;
`api` for an error returned by a remote-delegate method; `join2 a b` for
`errors.Join(a, b)` on two non-nil errors. -/
inductive Err where
  | badStatusCode (code : Int)
  | httpOpError (op : HttpReqOp)
  | transport (msg : String)
  | pixelHtmlVarNotFound
  | pixelScriptVarNotFound
  | invalidPageURL
  | urlParseError (msg : String)
  | api (msg : String)
  | parseFail (s : String)
  | detail (msg : String)
  | join2 (a b : Err)
deriving DecidableEq, Repr

/-- Whether an error value is a compound (`errors.Join`) error. -/
def Err.isJoin : Err → Bool
  | .join2 _ _ => true
  | _ => false

/-- Hexadecimal value of an ASCII hex digit (either case), `none` for
any other character — the digit set accepted by `strconv.ParseInt` base 16. -/
def hexDigitVal? (c : Char) : Option Nat :=
  if c.isDigit then some (c.toNat - 48)
  else if 'a' ≤ c ∧ c ≤ 'f' then some (c.toNat - 87)
  else if 'A' ≤ c ∧ c ≤ 'F' then some (c.toNat - 55)
  else none

/-- Numeric value of a list of ASCII hex digits. -/
def hexVal (l : List Char) : Nat :=
  l.foldl (fun a c => a * 16 + (hexDigitVal? c).getD 0) 0

/-- Go `strconv.ParseInt(s, 16, 64)`: optional sign, one or more hex digits,
value within the signed 64-bit range; `none` models a non-nil error. -/
def parseHexInt64 (s : List Char) : Option Int :=
  let (neg, ds) := stripSign s
  if ds.isEmpty || !(ds.all fun c => (hexDigitVal? c).isSome) then none
  else
    let v : Int := (hexVal ds : Nat)
    let v := if neg then -v else v
    if v < -(2 ^ 63) || v > 2 ^ 63 - 1 then none else some v

/-- Go `strings.Replace(s, "x", "", 1)`: delete the first occurrence of
`'x'`, if any. -/
def removeFirstX : List Char → List Char
  | [] => []
  | c :: r => if c = 'x' then r else c :: removeFirstX r

/-- Go `rune(i)` for an `int64` followed by `strings.Builder.WriteRune`:
the value is truncated to 32 bits, and an invalid rune (negative value, a
surrogate, or a value above `0x10FFFF`) is written as U+FFFD. -/
def runeOfInt64 (i : Int) : Char :=
  let r : Int := (i + 2 ^ 31).emod (2 ^ 32) - 2 ^ 31
  if 0 ≤ r ∧ r < 55296 ∨ 57343 < r ∧ r ≤ 1114111 then
    Char.ofNat r.toNat
  else
    Char.ofNat 65533

/-- The loop body of `internal.FromHexString`: for each `\`-delimited
segment, delete the first `x`, parse the rest as a base-16 `int64`, and
append the resulting rune; a parse failure aborts with the `strconv` error. -/
def decodeHexParts : List (List Char) → Except Err (List Char)
  | [] => .ok []
  | p :: ps =>
    match parseHexInt64 (removeFirstX p) with
    | none => .error (.parseFail (String.mk (removeFirstX p)))
    | some i => (decodeHexParts ps).map (runeOfInt64 i :: ·)

/-- `internal.FromHexString`: split on the backslash delimiter, discard the
first (always-empty) segment, decode each remaining segment's hex digits as
a character code, and concatenate the resulting characters. -/
def FromHexString (s : String) : Except Err String :=
  (decodeHexParts ((splitChar '\\' s.data).drop 1)).map String.mk

/-- Lowercase ASCII hex digit for a value below 16. -/
def hexDigitChar (n : Nat) : Char :=
  if n < 10 then Char.ofNat (48 + n) else Char.ofNat (87 + n)

/-- The two-hex-digit code of a character code below 256. -/
def hex2Chars (n : Nat) : List Char :=
  [hexDigitChar (n / 16), hexDigitChar (n % 16)]

/-- The hex escape of one character: the backslash-escape prefix `\x`
followed by its two-digit hexadecimal code. -/
def escapeChar (c : Char) : List Char :=
  '\\' :: 'x' :: hex2Chars c.toNat

/-- Hex-escape each character of a string (the encoding that
`internal.FromHexString` decodes, per the round-trip property). -/
def escapeHexString (l : List Char) : List Char :=
  (l.map escapeChar).flatten

/-- `Version`: the Akamai Bot Manager web SDK version tag; the wire values
of the three constants are `"1.7"`, `"1.75"` and `"2"` (Akamai 2.0). -/
inductive Version where
  | v17
  | v175
  | v2
deriving DecidableEq, Repr

/-- The JSON wire value of a `Version` constant. -/
def Version.tag : Version → String
  | .v17 => "1.7"
  | .v175 => "1.75"
  | .v2 => "2"

/-- `GetSdkVersion`: match the start of the script source against
`^var _acxj` (version 1.75), then `^\(function` (version 2.0), defaulting
to version 1.7. -/
def GetSdkVersion (src : List Char) : Version :=
  if "var _acxj".data.isPrefixOf src then .v175
  else if "(function".data.isPrefixOf src then .v2
  else .v17

/-- `IsScriptStatic`: whether the script source matches `^\(function \w+?`,
i.e. starts with `"(function "` followed by at least one word character. -/
def IsScriptStatic (src : List Char) : Bool :=
  "(function ".data.isPrefixOf src &&
    (match src.drop 10 with
     | c :: _ => isWordChar c
     | [] => false)

/-! ### Markup extraction

Direct implementations of the compiled patterns, following Go `regexp`'s
leftmost, backtracking-priority submatch semantics.  For each pattern the
greedy sub-expressions (`.*`, `.+`, `\d+`, `\w+`, …) are single-character
classes, so backtracking reduces to taking the maximal run and, where the
following literal cannot occur inside the class, the match at a given start
position is deterministic. -/

/-- Case-insensitive (ASCII) literal-prefix test; the pattern literal is
given in lowercase. -/
def ciPrefix : List Char → List Char → Bool
  | [], _ => true
  | _ :: _, [] => false
  | p :: pr, c :: cr => (c.toLower = p) && ciPrefix pr cr

/-- One attempt of `bazadebezolkohpepadr="(\d+)"` at the start of `s`:
the literal, then a maximal nonempty digit run, then `"`. -/
def pixelHtmlAt (s : List Char) : Option (List Char) :=
  if "bazadebezolkohpepadr=\"".data.isPrefixOf s then
    let t := s.drop 22
    let run := t.takeWhile Char.isDigit
    if run.isEmpty then none
    else if (t.drop run.length).head? = some '"' then some run else none
  else none

/-- Leftmost match of `pixelHtmlExpr`, returning the captured digit run. -/
def pixelHtmlFind : List Char → Option (List Char)
  | [] => none
  | s@(_ :: r) =>
    match pixelHtmlAt s with
    | some g => some g
    | none => pixelHtmlFind r

/-- `GetPixelChallengeHtmlVar`: find the numeric attribute; absence yields
the plain not-found error, while a matched value that fails `Atoi` (out of
the 64-bit range) yields `errors.Join(ErrPixelHtmlVarNotFound, err)`. -/
def GetPixelChallengeHtmlVar (src : List Char) : Except Err Int :=
  match pixelHtmlFind src with
  | none => .error .pixelHtmlVarNotFound
  | some ds =>
    match goAtoi ds with
    | some v => .ok v
    | none => .error (.join2 .pixelHtmlVarNotFound (.parseFail (String.mk ds)))

/-- Character class `[/\w\-]` of `scriptPathExpr`'s capture group. -/
def isScriptPathChar (c : Char) : Bool :=
  c = '/' || c = '-' || isWordChar c

/-- Tail of `scriptPathExpr` at the start of `t`: ` src="`, then a maximal
nonempty `[/\w\-]` run, then `">`. -/
def scriptPathTail (t : List Char) : Option (List Char) :=
  if " src=\"".data.isPrefixOf t then
    let t2 := t.drop 6
    let run := t2.takeWhile isScriptPathChar
    if run.isEmpty then none
    else if ['"', '>'].isPrefixOf (t2.drop run.length) then some run else none
  else none

/-- Greedy `(?i:.*)` of `scriptPathExpr`: try the longest newline-free
offset first, backing off one character at a time. -/
def scriptPathDotStar (t : List Char) : Nat → Option (List Char)
  | 0 => scriptPathTail t
  | k + 1 =>
    match scriptPathTail (t.drop (k + 1)) with
    | some r => some r
    | none => scriptPathDotStar t k

/-- One attempt of `scriptPathExpr` at the start of `s`. -/
def scriptPathAt (s : List Char) : Option (List Char) :=
  if "<script type=\"text/javascript\"".data.isPrefixOf s then
    let t := s.drop 30
    scriptPathDotStar t (t.takeWhile (fun c => c ≠ '\n')).length
  else none

/-- Leftmost match of `scriptPathExpr`, returning the captured path. -/
def scriptPathFind : List Char → Option (List Char)
  | [] => none
  | s@(_ :: r) =>
    match scriptPathAt s with
    | some g => some g
    | none => scriptPathFind r

/-- `GetScriptPath`, the single-string variant: the captured web SDK path,
or the empty string when the pattern does not match. -/
def GetScriptPath (src : List Char) : String :=
  match scriptPathFind src with
  | none => ""
  | some p => String.mk p

/-- `GetScriptPath`, the `(ok, path)` variant from `script_path.go`: `ok`
reports whether the pattern matched, and `path` is the captured path. -/
def GetScriptPathOk (src : List Char) : Bool × String :=
  match scriptPathFind src with
  | none => (false, "")
  | some p => (true, String.mk p)

/-- `https?://` of `pixelScriptUrlExpr` (case-insensitive): returns the
number of characters consumed, greedily preferring the `https` branch. -/
def pixelUrlScheme (t : List Char) : Option Nat :=
  if ciPrefix "http".data t then
    if ciPrefix "s://".data (t.drop 4) then some 8
    else if ciPrefix "://".data (t.drop 4) then some 7
    else none
  else none

/-- `/akam/\d+/\w+"` of `pixelScriptUrlExpr` at the start of `t`: returns
the number of characters consumed up to but excluding the closing quote. -/
def pixelUrlTail (t : List Char) : Option Nat :=
  if ciPrefix "/akam/".data t then
    let t2 := t.drop 6
    let ds := t2.takeWhile Char.isDigit
    if ds.isEmpty then none
    else
      match t2.drop ds.length with
      | '/' :: t3 =>
        let ws := t3.takeWhile isWordChar
        if ws.isEmpty then none
        else if (t3.drop ws.length).head? = some '"' then
          some (6 + ds.length + 1 + ws.length)
        else none
      | _ => none
  else none

/-- Greedy `.+` of `pixelScriptUrlExpr`: try the longest newline-free
offset first; the argument is the attempted length of the `.+` run, which
must be at least one. -/
def pixelUrlDotPlus (t : List Char) : Nat → Option Nat
  | 0 => none
  | k + 1 =>
    match pixelUrlTail (t.drop (k + 1)) with
    | some n => some (k + 1 + n)
    | none => pixelUrlDotPlus t k

/-- One attempt of `pixelScriptUrlExpr` at the start of `s`, returning the
captured URL group. -/
def pixelUrlAt (s : List Char) : Option (List Char) :=
  if ciPrefix "src=\"".data s then
    let t := s.drop 5
    match pixelUrlScheme t with
    | none => none
    | some m =>
      let t2 := t.drop m
      match pixelUrlDotPlus t2 (t2.takeWhile (fun c => c ≠ '\n')).length with
      | none => none
      | some n => some (t.take (m + n))
  else none

/-- Leftmost match of `pixelScriptUrlExpr`. -/
def pixelScriptUrlFind : List Char → Option (List Char)
  | [] => none
  | s@(_ :: r) =>
    match pixelUrlAt s with
    | some g => some g
    | none => pixelScriptUrlFind r

/-- `GetPixelChallengeScriptURL`: the pixel challenge script URL and the
post URL obtained by prefixing the final `/`-segment with `pixel_`;
`none` models `ok == false`. -/
def GetPixelChallengeScriptURL (src : List Char) : Option (String × String) :=
  match pixelScriptUrlFind src with
  | none => none
  | some g =>
    let parts := splitChar '/' g
    let parts := parts.dropLast ++ ["pixel_".data ++ (parts.getLast?.getD [])]
    some (String.mk g, String.mk (List.intercalate ['/'] parts))

/-- One attempt of `g=_\[(\d+)]` at the start of `s`. -/
def pixelScriptVarAt (s : List Char) : Option (List Char) :=
  if "g=_[".data.isPrefixOf s then
    let t := s.drop 4
    let ds := t.takeWhile Char.isDigit
    if ds.isEmpty then none
    else if (t.drop ds.length).head? = some ']' then some ds else none
  else none

/-- Leftmost match of `pixelScriptVarExpr`. -/
def pixelScriptVarFind : List Char → Option (List Char)
  | [] => none
  | s@(_ :: r) =>
    match pixelScriptVarAt s with
    | some g => some g
    | none => pixelScriptVarFind r

/-- Greedy `.+` of `pixelScriptStringArrayExpr`: the longest newline-free
run followed by the literal `];`. -/
def pixelArrayScan (t : List Char) : Nat → Option (List Char)
  | 0 => none
  | k + 1 =>
    if [']', ';'].isPrefixOf (t.drop (k + 1)) then some (t.take (k + 1))
    else pixelArrayScan t k

/-- One attempt of `(?i)var _=\[(.+)];` at the start of `s`. -/
def pixelArrayAt (s : List Char) : Option (List Char) :=
  if ciPrefix "var _=[".data s then
    let t := s.drop 7
    pixelArrayScan t (t.takeWhile (fun c => c ≠ '\n')).length
  else none

/-- Leftmost match of `pixelScriptStringArrayExpr`. -/
def pixelArrayFind : List Char → Option (List Char)
  | [] => none
  | s@(_ :: r) =>
    match pixelArrayAt s with
    | some g => some g
    | none => pixelArrayFind r

/-- One attempt of `(?i)"([^",]*)"` at the start of `s`: on success returns
the captured run and the remaining input after the closing quote. -/
def quotedAt (s : List Char) : Option (List Char × List Char) :=
  match s with
  | '"' :: t =>
    let run := t.takeWhile (fun c => c ≠ '"' && c ≠ ',')
    if (t.drop run.length).head? = some '"' then
      some (run, t.drop (run.length + 1))
    else none
  | _ => none

/-- `FindAllSubmatch` for `pixelScriptStringsExpr`: repeatedly take the
leftmost match and continue after its end.  The fuel argument bounds the
scan by the input length; every step consumes at least one character. -/
def quotedFindAllAux : Nat → List Char → List (List Char)
  | 0, _ => []
  | _, [] => []
  | fuel + 1, s@(_ :: r) =>
    match quotedAt s with
    | some (g, rest) => g :: quotedFindAllAux fuel rest
    | none => quotedFindAllAux fuel r

/-- All captures of `pixelScriptStringsExpr` over `s`, in order. -/
def quotedFindAll (s : List Char) : List (List Char) :=
  quotedFindAllAux s.length s

/-- `GetPixelChallengeScriptVar`: find the array-index reference, the
encoded-string array declaration, the quoted entries, select the indexed
entry and decode it with `FromHexString`; every failure is reported as
`ErrPixelScriptVarNotFound` joined with its underlying cause.  (On a match,
Go's `FindSubmatch` always yields a submatch slice of length 2 here, so the
corresponding length checks fail only when there is no match.) -/
def GetPixelChallengeScriptVar (src : List Char) : Except Err String :=
  match pixelScriptVarFind src with
  | none => .error (.join2 .pixelScriptVarNotFound (.detail "len(index) expected 2, got: 0"))
  | some ds =>
    match goAtoi ds with
    | none => .error (.join2 .pixelScriptVarNotFound (.parseFail (String.mk ds)))
    | some stringIndex =>
      match pixelArrayFind src with
      | none =>
        .error (.join2 .pixelScriptVarNotFound
          (.detail "len(arrayDeclaration) expected 2, got: 0"))
      | some arr =>
        let rawStrings := quotedFindAll arr
        if (rawStrings.length : Int) ≤ stringIndex then
          .error (.join2 .pixelScriptVarNotFound
            (.detail ("string index out of range: " ++ toString stringIndex
              ++ " >= " ++ toString rawStrings.length)))
        else
          match FromHexString (String.mk (rawStrings.getD stringIndex.toNat [])) with
          | .ok v => .ok v
          | .error e => .error (.join2 .pixelScriptVarNotFound e)

/-! ### The generation orchestrator

`Session.Generate` and its two workflow branches.  The caller-supplied
HTTP executor and cookie reader and the three remote-delegate operations
are oracles that may depend on the full history of external calls made so
far (which subsumes any deterministic stateful behaviour, such as a cookie
jar evolving as requests are made); `net/url.Parse` is likewise a
collaborator boundary, modelled as an oracle.  The two branches, which the
source runs concurrently and joins, are modelled sequentially — every claim
proved below concerns a single branch or the pre-fork prefix, and the only
cross-branch interaction in the source is the append-only error collector. -/

/-- The API generation request schema (`GenerateRequest`). -/
structure GenerateRequest where
  userAgent : String
  version : Version
  pageURL : String
  abck : String
  bmSz : String
  scriptValues : String
deriving DecidableEq, Repr

/-- The API generation response schema (`GenerateResponse`). -/
structure GenerateResponse where
  payload : String
deriving DecidableEq, Repr

/-- The API pixel challenge request schema (`PixelSolveRequest`). -/
structure PixelSolveRequest where
  userAgent : String
  htmlVar : Int
  scriptVar : String
deriving DecidableEq, Repr

/-- The API pixel challenge response schema (`PixelSolveResponse`). -/
structure PixelSolveResponse where
  payload : String
deriving DecidableEq, Repr

/-- The dynamic script API response schema (`DynamicScriptResponse`). -/
structure DynamicScriptResponse where
  success : Bool
  message : String
  scriptValues : String
deriving DecidableEq, Repr

/-- The part of `net/url.URL` that `Generate` uses. -/
structure GoURL where
  scheme : String
  host : String
deriving DecidableEq, Repr

/-- `url.URL.IsAbs`: an absolute URL has a nonempty scheme. -/
def GoURL.IsAbs (u : GoURL) : Bool := u.scheme != ""

/-- One observable external call made during `Generate`, with its
response: an HTTP request through the caller-supplied executor, a cookie
read, or a remote-delegate operation. -/
inductive Event where
  | httpReq (op : HttpReqOp) (url method : String) (body : Option String)
      (status : Int) (respBody : String) (rerr : Option String)
  | cookieRead (name value : String)
  | apiSensor (req : GenerateRequest) (res : Except Err GenerateResponse)
  | apiPixel (req : PixelSolveRequest) (res : Except Err PixelSolveResponse)
  | apiDynamic (src : String) (res : Except Err DynamicScriptResponse)

/-- A caller-supplied `DoHttpReqFunc`, as an oracle over the call history:
given the events so far, the operation tag, URL, method and optional body,
it returns the status code, response body, and optional transport error. -/
def HttpFun : Type :=
  List Event → HttpReqOp → String → String → Option String →
    Int × String × Option String

/-- A caller-supplied `GetCookieFunc`, as an oracle over the call history. -/
def CookieFun : Type := List Event → GoURL → String → String

/-- The session-side collaborators: the three remote-delegate operations
(`GenerateSensorData`, `GeneratePixelPayload`, `GetDynamicScriptValues`)
and `net/url.Parse`. -/
structure Env where
  sensorApi : List Event → GenerateRequest → Except Err GenerateResponse
  pixelApi : List Event → PixelSolveRequest → Except Err PixelSolveResponse
  dynApi : List Event → String → Except Err DynamicScriptResponse
  urlParse : String → Except String GoURL

/-- The arguments of `Session.Generate`; the two function arguments are
optional to model Go's nil function values. -/
structure GenArgs where
  userAgent : String
  pageUrl : String
  doHttpReq : Option HttpFun
  getCookie : Option CookieFun
  maxTries : Int

/-- The literal sensor-data POST body shape that `Generate` builds with
`fmt.Sprintf`: an opening brace, `"sensor_data":"`, the payload spliced in
verbatim, a quote and a closing brace — not produced by a JSON encoder. -/
def sensorDataBody (payload : String) : String :=
  "\x7b\"sensor_data\":\"" ++ payload ++ "\"\x7d"

/-- The outcome of a `Generate` call: a panic, an early single-error
return (before the branches fork), or completion with the joined list of
branch errors (`errors.Join` of the empty list is nil, i.e. success). -/
inductive GenOutcome where
  | panicked (msg : String)
  | earlyError (e : Err)
  | completed (errs : List Err)

/-- The pixel-challenge branch of `Generate` (the first goroutine):
detect presence, extract the HTML variable, fetch the script (404 means
already solved; any other non-200 status is a failure), extract the script
variable, generate the payload remotely, and POST it.  Returns the external
calls made by the branch and the errors it appended. -/
def pixelBranch (env : Env) (doReq : HttpFun) (userAgent : String)
    (pageBody : String) (hist : List Event) : List Event × List Err :=
  match GetPixelChallengeScriptURL pageBody.data with
  | none => ([], [])
  | some (scriptUrl, postUrl) =>
    match GetPixelChallengeHtmlVar pageBody.data with
    | .error e => ([], [e])
    | .ok htmlVar =>
      let r := doReq hist .opGetPixelChallengeScript scriptUrl "GET" none
      let ev := Event.httpReq .opGetPixelChallengeScript scriptUrl "GET" none r.1 r.2.1 r.2.2
      match r.2.2 with
      | some e => ([ev], [.transport e])
      | none =>
        if r.1 = 200 then
          match GetPixelChallengeScriptVar r.2.1.data with
          | .error e => ([ev], [e])
          | .ok scriptVar =>
            let req : PixelSolveRequest :=
              { userAgent := userAgent, htmlVar := htmlVar, scriptVar := scriptVar }
            let pres := env.pixelApi (hist ++ [ev]) req
            let ev2 := Event.apiPixel req pres
            match pres with
            | .error e => ([ev, ev2], [e])
            | .ok resp =>
              let r2 :=
                doReq (hist ++ [ev, ev2]) .opPostPixelPayload postUrl "POST" (some resp.payload)
              let ev3 := Event.httpReq .opPostPixelPayload postUrl "POST"
                (some resp.payload) r2.1 r2.2.1 r2.2.2
              match r2.2.2 with
              | some e => ([ev, ev2, ev3], [.transport e])
              | none => ([ev, ev2, ev3], [])
        else if r.1 = 404 then ([ev], [])
        else ([ev], [.badStatusCode r.1])

/-- The sensor retry loop of `Generate` (`for i := 0; i < maxTries; i++`):
each iteration reads the current cookies, builds the request DTO, calls the
remote delegate, POSTs `sensorDataBody` of the returned payload to the
script URL (the POST's status code is not inspected), and exits early when
`IsCookieValid` reports the freshly re-read cookie valid at attempt `i`. -/
def sensorLoop (env : Env) (doReq : HttpFun) (gc : CookieFun) (u : GoURL)
    (userAgent pageUrl scriptUrl : String) (version : Version)
    (scriptValues : String) : Nat → Int → List Event → List Event × List Err
  | 0, _, _ => ([], [])
  | fuel + 1, i, hist =>
    let abck := gc hist u "_abck"
    let ev1 := Event.cookieRead "_abck" abck
    let phr :=
      if version = Version.v2 then
        let bm := gc (hist ++ [ev1]) u "bm_sz"
        let evb := Event.cookieRead "bm_sz" bm
        ([ev1, evb], hist ++ [ev1, evb],
          ({ userAgent := userAgent, version := version, pageURL := pageUrl,
             abck := abck, bmSz := bm, scriptValues := scriptValues } : GenerateRequest))
      else
        ([ev1], hist ++ [ev1],
          ({ userAgent := userAgent, version := version, pageURL := pageUrl,
             abck := abck, bmSz := "", scriptValues := scriptValues } : GenerateRequest))
    let pre := phr.1
    let hist2 := phr.2.1
    let req := phr.2.2
    let res := env.sensorApi hist2 req
    let ev2 := Event.apiSensor req res
    match res with
    | .error e => (pre ++ [ev2], [e])
    | .ok resp =>
      let body := sensorDataBody resp.payload
      let r := doReq (hist2 ++ [ev2]) .opPostSensorData scriptUrl "POST" (some body)
      let ev3 := Event.httpReq .opPostSensorData scriptUrl "POST" (some body) r.1 r.2.1 r.2.2
      match r.2.2 with
      | some e => (pre ++ [ev2, ev3], [.transport e])
      | none =>
        let cv := gc (hist2 ++ [ev2, ev3]) u "_abck"
        let ev4 := Event.cookieRead "_abck" cv
        if IsCookieValid cv i then (pre ++ [ev2, ev3, ev4], [])
        else
          let rest := sensorLoop env doReq gc u userAgent pageUrl scriptUrl version
            scriptValues fuel (i + 1) (hist2 ++ [ev2, ev3, ev4])
          (pre ++ [ev2, ev3, ev4] ++ rest.1, rest.2)

/-- The sensor branch of `Generate` (the second goroutine): find the
script path (absence skips the branch), build the script URL from the page
URL's scheme and host, fetch the script, detect the version, fetch dynamic
script values remotely for non-static version-2 scripts, then run the
retry loop. -/
def sensorBranch (env : Env) (doReq : HttpFun) (gc : CookieFun) (u : GoURL)
    (userAgent pageUrl : String) (pageBody : String) (maxTries : Int)
    (hist : List Event) : List Event × List Err :=
  let scriptPath := GetScriptPath pageBody.data
  if scriptPath = "" then ([], [])
  else
    let scriptUrl := u.scheme ++ "://" ++ u.host ++ scriptPath
    let r := doReq hist .opGetSdkScript scriptUrl "GET" none
    let ev := Event.httpReq .opGetSdkScript scriptUrl "GET" none r.1 r.2.1 r.2.2
    match r.2.2 with
    | some e => ([ev], [.transport e])
    | none =>
      if r.1 = 200 then
        let version := GetSdkVersion r.2.1.data
        if version = Version.v2 ∧ ¬IsScriptStatic r.2.1.data then
          let dres := env.dynApi (hist ++ [ev]) r.2.1
          let ev2 := Event.apiDynamic r.2.1 dres
          match dres with
          | .error e => ([ev, ev2], [e])
          | .ok dresp =>
            let scriptValues := if dresp.success then dresp.scriptValues else ""
            let rest := sensorLoop env doReq gc u userAgent pageUrl scriptUrl version
              scriptValues maxTries.toNat 0 (hist ++ [ev, ev2])
            (ev :: ev2 :: rest.1, rest.2)
        else
          let rest := sensorLoop env doReq gc u userAgent pageUrl scriptUrl version
            "" maxTries.toNat 0 (hist ++ [ev])
          (ev :: rest.1, rest.2)
      else ([ev], [.badStatusCode r.1])

/-- `Session.Generate`: validate the preconditions (panicking on a nil
executor or cookie reader or a non-positive attempt bound), parse the page
URL and require it absolute, fetch the page (any failure is fatal and
wraps the page-fetch purpose), then run the two branches and join their
collected errors. -/
def Generate (env : Env) (a : GenArgs) : GenOutcome × List Event :=
  match a.doHttpReq with
  | none => (.panicked "akamai-sdk-go: nil DoHttpReqFunc passed to Generate", [])
  | some doReq =>
    match a.getCookie with
    | none => (.panicked "akamai-sdk-go: nil GetCookieFunc passed to Generate", [])
    | some gc =>
      if a.maxTries ≤ 0 then (.panicked "akamai-sdk-go: maxTries <= 0", [])
      else
        match env.urlParse a.pageUrl with
        | .error msg => (.earlyError (.urlParseError msg), [])
        | .ok u =>
          if u.IsAbs = false then (.earlyError .invalidPageURL, [])
          else
            let r := doReq [] .opGetPage a.pageUrl "GET" none
            let ev := Event.httpReq .opGetPage a.pageUrl "GET" none r.1 r.2.1 r.2.2
            match r.2.2 with
            | some e =>
              (.earlyError (.join2 (.httpOpError .opGetPage) (.transport e)), [ev])
            | none =>
              if r.1 = 200 then
                let resA := pixelBranch env doReq a.userAgent r.2.1 [ev]
                let resB := sensorBranch env doReq gc u a.userAgent a.pageUrl r.2.1
                  a.maxTries ([ev] ++ resA.1)
                (.completed (resA.2 ++ resB.2), ev :: (resA.1 ++ resB.1))
              else
                (.earlyError (.join2 (.httpOpError .opGetPage) (.badStatusCode r.1)), [ev])

/-- Whether every sensor-data POST in an event list goes to the script
URL with method POST and a body that is exactly `sensorDataBody` of the
payload returned by the immediately preceding sensor-delegate call;
`prev` is the event immediately before the list, if any. -/
def postsSpliced (scriptUrl : String) : Option Event → List Event → Bool
  | _, [] => true
  | prev, e :: rest =>
    (match e, prev with
     | .httpReq .opPostSensorData url m b _ _ _, some (.apiSensor _ (.ok r)) =>
       url == scriptUrl && m == "POST" && b == some (sensorDataBody r.payload)
     | .httpReq .opPostSensorData _ _ _ _ _ _, _ => false
     | _, _ => true) && postsSpliced scriptUrl (some e) rest

/-- C1 (counterexample): on the cookie value `"0~-1"` the second `~`-field
parses as the integer `-1` and `5 >= -1`, yet `IsCookieValid` returns
`false` — the code treats a parsed threshold of `-1` as the parse-failure
sentinel, contradicting the claim that a parseable threshold yields `true`
exactly when `n >= threshold`. -/
theorem isCookieValid_claim_counterexample :
    goAtoi ((splitChar '~' ("0~-1" : String).data).getD 1 []) = some (-1)
      ∧ ((5 : Int) ≥ -1)
      ∧ IsCookieValid "0~-1" 5 = false := by
  refine ⟨by decide, by decide, by decide⟩

/-- C1 (amended): `IsCookieValid value n` returns `false` when splitting
`value` on `~` yields fewer than two fields, `false` when the second field
does not parse as an integer, and — when the second field parses as an
integer `threshold` — returns `true` exactly when `threshold ≠ -1` and
`n ≥ threshold` (a parsed `-1` is conflated with the unavailable sentinel). -/
theorem isCookieValid_spec (value : String) (n : Int) :
    ((splitChar '~' value.data).length < 2 → IsCookieValid value n = false)
      ∧ ((splitChar '~' value.data).length ≥ 2 →
          goAtoi ((splitChar '~' value.data).getD 1 []) = none →
          IsCookieValid value n = false)
      ∧ (∀ t : Int, (splitChar '~' value.data).length ≥ 2 →
          goAtoi ((splitChar '~' value.data).getD 1 []) = some t →
          (IsCookieValid value n = true ↔ t ≠ -1 ∧ t ≤ n)) := by
  unfold IsCookieValid
  refine ⟨fun h => by simp [h], fun h hp => ?_, fun t h hp => ?_⟩
  · rw [if_neg (by omega), hp]
    simp
  · rw [if_neg (by omega), hp]
    simp [bne_iff_ne]

/-- C1 witness: the amended characterization applied to the concrete cookie
value `"ab~3"` with `n = 3`: the second field parses as `3` and the cookie
is reported valid. -/
theorem isCookieValid_spec_witness : IsCookieValid "ab~3" 3 = true := by
  exact ((isCookieValid_spec "ab~3" 3).2.2 3 (by decide) (by decide)).mpr
    (by constructor <;> decide)

/-- C4: `GetSdkVersion` returns one of exactly the three tags of `Version`:
`1.75` when the source matches the 1.75 prefix pattern `^var _acxj`,
otherwise `2.0` when it matches the 2.0 prefix pattern `^\(function`, and
otherwise the default oldest version `1.7`. -/
theorem getSdkVersion_spec (src : List Char) :
    (GetSdkVersion src = .v175 ↔ "var _acxj".data.isPrefixOf src = true)
      ∧ (GetSdkVersion src = .v2 ↔
          "var _acxj".data.isPrefixOf src = false
            ∧ "(function".data.isPrefixOf src = true)
      ∧ (GetSdkVersion src = .v17 ↔
          "var _acxj".data.isPrefixOf src = false
            ∧ "(function".data.isPrefixOf src = false) := by
  unfold GetSdkVersion
  split
  · next h => simp_all
  · next h =>
    split
    · next h2 => simp_all [Bool.eq_false_iff, List.isPrefixOf_iff_prefix]
    · next h2 => simp_all [Bool.eq_false_iff, List.isPrefixOf_iff_prefix]

/-- C9: a statically shaped script is classified as version 2.0: whenever
`IsScriptStatic src` holds, the source starts with `"(function "` and a word
character, hence matches the 2.0 prefix pattern and cannot match the 1.75
marker, so `GetSdkVersion src = Version2`. -/
theorem isScriptStatic_implies_version2 (src : List Char)
    (h : IsScriptStatic src = true) : GetSdkVersion src = .v2 := by
  unfold IsScriptStatic at h
  rw [Bool.and_eq_true] at h
  obtain ⟨hpre, _⟩ := h
  rw [List.isPrefixOf_iff_prefix] at hpre
  obtain ⟨rest, hrest⟩ := hpre
  unfold GetSdkVersion
  rw [if_neg, if_pos]
  · rw [List.isPrefixOf_iff_prefix]
    exact List.IsPrefix.trans (by decide) ⟨rest, hrest⟩
  · intro hv
    rw [List.isPrefixOf_iff_prefix] at hv
    obtain ⟨r2, hr2⟩ := hv
    rw [← hrest] at hr2
    simp [String.data] at hr2

/-- C9 witness: the concrete static-shaped source `"(function ab(){})"`
is classified static and as version 2.0. -/
theorem isScriptStatic_implies_version2_witness :
    IsScriptStatic "(function ab(){})".data = true
      ∧ GetSdkVersion "(function ab(){})".data = .v2 :=
  ⟨by decide, isScriptStatic_implies_version2 _ (by decide)⟩

theorem splitChar_ne_nil (sep : Char) (l : List Char) : splitChar sep l ≠ [] := by
  induction l with
  | nil => simp [splitChar]
  | cons c r ih =>
    simp only [splitChar]
    split
    · simp
    · split
      · simp
      · simp

theorem splitChar_cons_of_ne (sep c : Char) (l : List Char) (h : c ≠ sep) :
    splitChar sep (c :: l) =
      (c :: (splitChar sep l).headI) :: (splitChar sep l).tail := by
  simp only [splitChar, if_neg h]
  cases hs : splitChar sep l with
  | nil => exact absurd hs (splitChar_ne_nil sep l)
  | cons g gs => simp

theorem splitChar_append_nosep (sep : Char) (a l : List Char)
    (h : ∀ x ∈ a, x ≠ sep) :
    splitChar sep (a ++ l) =
      (a ++ (splitChar sep l).headI) :: (splitChar sep l).tail := by
  induction a with
  | nil =>
    cases hs : splitChar sep l with
    | nil => exact absurd hs (splitChar_ne_nil sep l)
    | cons g gs => simp [hs]
  | cons c r ih =>
    rw [List.cons_append,
      splitChar_cons_of_ne sep c (r ++ l) (h c (List.mem_cons_self c r)),
      ih (fun x hx => h x (List.mem_cons_of_mem c hx))]
    simp

theorem hexDigitChar_facts (n : Nat) (h : n < 16) :
    hexDigitChar n ≠ '\\' ∧ hexDigitChar n ≠ '-' ∧ hexDigitChar n ≠ '+'
      ∧ hexDigitVal? (hexDigitChar n) = some n := by
  interval_cases n <;> exact ⟨by decide, by decide, by decide, by decide⟩

/-- Splitting an all-escaped string on the backslash delimiter yields an
empty first segment followed by the `xHH` segments, one per character. -/
theorem splitChar_escapeHexString (l : List Char) (h : ∀ c ∈ l, c.toNat < 256) :
    splitChar '\\' (escapeHexString l) =
      [] :: l.map (fun c => 'x' :: hex2Chars c.toNat) := by
  induction l with
  | nil => rfl
  | cons c r ih =>
    have hc : c.toNat < 256 := h c (List.mem_cons_self c r)
    have hstep : escapeHexString (c :: r) =
        '\\' :: (('x' :: hex2Chars c.toNat) ++ escapeHexString r) := by
      simp [escapeHexString, escapeChar]
    rw [hstep]
    have h1 : splitChar '\\' ('\\' :: (('x' :: hex2Chars c.toNat) ++ escapeHexString r)) =
        [] :: splitChar '\\' (('x' :: hex2Chars c.toNat) ++ escapeHexString r) := by
      simp [splitChar]
    rw [h1, splitChar_append_nosep '\\' _ _ ?nosep,
      ih (fun x hx => h x (List.mem_cons_of_mem c hx))]
    · simp
    case nosep =>
      intro x hx
      rcases List.mem_cons.mp hx with h' | h'
      · rw [h']; decide
      · rcases List.mem_cons.mp h' with h'' | h''
        · rw [h'']
          exact (hexDigitChar_facts (c.toNat / 16) (by omega)).1
        · rcases List.mem_cons.mp h'' with h3 | h3
          · rw [h3]
            exact (hexDigitChar_facts (c.toNat % 16) (by omega)).1
          · simp at h3

theorem parseHexInt64_hex2Chars (n : Nat) (h : n < 256) :
    parseHexInt64 (hex2Chars n) = some (n : Int) := by
  have hhi := hexDigitChar_facts (n / 16) (by omega)
  have hlo := hexDigitChar_facts (n % 16) (by omega)
  have hstrip : stripSign (hex2Chars n) = (false, hex2Chars n) := by
    simp only [hex2Chars, stripSign, if_neg hhi.2.1, if_neg hhi.2.2.1]
  have hv : hexVal [hexDigitChar (n / 16), hexDigitChar (n % 16)] = n := by
    simp only [hexVal, List.foldl, hhi.2.2.2, hlo.2.2.2, Option.getD_some]
    omega
  have hn2 : (n : Int) < 256 := by exact_mod_cast h
  unfold parseHexInt64
  rw [hstrip]
  simp only [hex2Chars, List.isEmpty_cons, List.all_cons, List.all_nil, hhi.2.2.2, hlo.2.2.2,
    Option.isSome_some, Bool.and_true, Bool.and_self, Bool.not_true, Bool.or_self,
    Bool.false_or, Bool.if_false_left]
  have hcond : ¬((decide ((n : Int) < -(2 ^ 63)) || decide ((n : Int) > 2 ^ 63 - 1)) = true) := by
    simp only [Bool.or_eq_true, decide_eq_true_eq, not_or, not_lt]
    omega
  simp only [hv, Bool.false_eq_true, if_false]
  rw [if_neg hcond]

theorem runeOfInt64_small (c : Char) (h : c.toNat < 256) :
    runeOfInt64 c.toNat = c := by
  unfold runeOfInt64
  have h0 : (0 : Int) ≤ (c.toNat : Int) := Int.ofNat_nonneg _
  have h1 : (c.toNat : Int) < 256 := by exact_mod_cast h
  have hp31 : (2 : Int) ^ 31 = 2147483648 := by norm_num
  have hp32 : (2 : Int) ^ 32 = 4294967296 := by norm_num
  have hmod : ((c.toNat : Int) + 2 ^ 31).emod (2 ^ 32) = (c.toNat : Int) + 2 ^ 31 :=
    Int.emod_eq_of_lt (by omega) (by omega)
  rw [hmod]
  have hr : (c.toNat : Int) + 2 ^ 31 - 2 ^ 31 = (c.toNat : Int) := by omega
  rw [hr, if_pos (Or.inl ⟨h0, by omega⟩)]
  rw [Int.toNat_ofNat]
  exact Char.ofNat_toNat c

theorem decodeHexParts_escape (l : List Char) (h : ∀ c ∈ l, c.toNat < 256) :
    decodeHexParts (l.map (fun c => 'x' :: hex2Chars c.toNat)) = .ok l := by
  induction l with
  | nil => rfl
  | cons c r ih =>
    have hc : c.toNat < 256 := h c (List.mem_cons_self c r)
    simp only [List.map_cons, decodeHexParts]
    have h1 : removeFirstX ('x' :: hex2Chars c.toNat) = hex2Chars c.toNat := by
      simp [removeFirstX]
    rw [h1, parseHexInt64_hex2Chars c.toNat hc]
    simp only [ih (fun x hx => h x (List.mem_cons_of_mem c hx)), Except.map,
      runeOfInt64_small c hc]

/-- C5 (round-trip): for every string each of whose characters fits a
two-hex-digit character code, escaping each character as `\x` plus its
two-digit hex code and then applying `FromHexString` yields the original
string with no error. -/
theorem fromHexString_roundtrip (s : String) (h : ∀ c ∈ s.data, c.toNat < 256) :
    FromHexString (String.mk (escapeHexString s.data)) = .ok s := by
  unfold FromHexString
  have hd : (String.mk (escapeHexString s.data)).data = escapeHexString s.data := rfl
  rw [hd, splitChar_escapeHexString s.data h, List.drop_succ_cons, List.drop_zero,
    decodeHexParts_escape s.data h]
  cases s
  rfl

/-- C5 witness: the concrete string `"AB\\x"` (character codes 65, 66, 92,
120) survives the escape/decode round trip. -/
theorem fromHexString_roundtrip_witness :
    FromHexString (String.mk (escapeHexString ("AB\\x" : String).data)) = .ok "AB\\x" :=
  fromHexString_roundtrip "AB\\x" (by decide)

/-- C6 (counterexample): on input containing `bazadebezolkohpepadr="a"` the
pattern `bazadebezolkohpepadr="(\d+)"` does not match at all (the capture
requires at least one digit), so `GetPixelChallengeHtmlVar` returns the
plain `ErrPixelHtmlVarNotFound` — not the compound not-found-wrapping-parse
failure the claim asserts, and indistinguishable from the absent case. -/
theorem getPixelChallengeHtmlVar_claim_counterexample :
    GetPixelChallengeHtmlVar "bazadebezolkohpepadr=\"a\"".data
        = .error .pixelHtmlVarNotFound
      ∧ Err.isJoin .pixelHtmlVarNotFound = false := by
  exact ⟨rfl, rfl⟩

/-- C6 (amended): `GetPixelChallengeHtmlVar` on input containing
`bazadebezolkohpepadr="500"` returns `(500, nil)`; on input containing
`bazadebezolkohpepadr="a"` the pattern does not match, so the plain
not-found error is returned, the same error as when the attribute is
absent; the compound error (not-found wrapping a parse failure) arises only
when the matched digit run does not fit a 64-bit integer. -/
theorem getPixelChallengeHtmlVar_spec :
    GetPixelChallengeHtmlVar "bazadebezolkohpepadr=\"500\"".data = .ok 500
      ∧ GetPixelChallengeHtmlVar "bazadebezolkohpepadr=\"a\"".data
          = .error .pixelHtmlVarNotFound
      ∧ GetPixelChallengeHtmlVar "".data = .error .pixelHtmlVarNotFound
      ∧ GetPixelChallengeHtmlVar "bazadebezolkohpepadr=\"99999999999999999999\"".data
          = .error (.join2 .pixelHtmlVarNotFound
              (.parseFail "99999999999999999999")) := by
  exact ⟨rfl, rfl, rfl, rfl⟩

theorem scriptPathTail_ne_nil {t r : List Char} (h : scriptPathTail t = some r) :
    r ≠ [] := by
  simp only [scriptPathTail] at h
  split at h
  case isTrue hpre =>
    split at h
    case isTrue hempty => exact absurd h (by simp)
    case isFalse hempty =>
      split at h
      case isTrue hpref =>
        cases h
        intro hc
        rw [hc] at hempty
        exact hempty rfl
      case isFalse hpref => exact absurd h (by simp)
  case isFalse hpre => exact absurd h (by simp)

theorem scriptPathDotStar_ne_nil {t r : List Char} :
    ∀ {k : Nat}, scriptPathDotStar t k = some r → r ≠ []
  | 0, h => scriptPathTail_ne_nil h
  | k + 1, h => by
    unfold scriptPathDotStar at h
    split at h
    · next heq => cases h; exact scriptPathTail_ne_nil heq
    · exact scriptPathDotStar_ne_nil h

theorem scriptPathAt_ne_nil {s r : List Char} (h : scriptPathAt s = some r) :
    r ≠ [] := by
  unfold scriptPathAt at h
  split at h
  · exact scriptPathDotStar_ne_nil h
  · exact absurd h (by simp)

theorem scriptPathFind_ne_nil : ∀ {src r : List Char},
    scriptPathFind src = some r → r ≠ []
  | [], _, h => by simp [scriptPathFind] at h
  | c :: rest, r, h => by
    unfold scriptPathFind at h
    split at h
    · next heq => cases h; exact scriptPathAt_ne_nil heq
    · exact scriptPathFind_ne_nil h

/-- C10: the `(ok, path)` variant of `GetScriptPath` (from
`script_path.go`) and the single-string variant (used by `Generate`) are
extensionally equivalent: `ok` is `true` exactly when the single-string
variant returns a nonempty path, and the two returned paths always agree
(both compile the same `scriptPathExpr`, whose capture group `[/\w\-]+`
is nonempty on any match). -/
theorem getScriptPath_variants_equiv (src : List Char) :
    ((GetScriptPathOk src).1 = true ↔ GetScriptPath src ≠ "")
      ∧ (GetScriptPathOk src).2 = GetScriptPath src := by
  unfold GetScriptPath GetScriptPathOk
  cases hf : scriptPathFind src with
  | none => simp
  | some p =>
    have hp : p ≠ [] := scriptPathFind_ne_nil hf
    have hne : String.mk p ≠ "" := fun hc => hp (congrArg String.data hc)
    simp [hne]

/-- C7: `Generate` panics when the HTTP executor is nil, when the cookie
reader is nil, or when `maxTries <= 0`; it returns `ErrInvalidPageURL` when
the page URL parses but is not absolute, and the parse error itself when
parsing fails; in every such case the call aborts with an empty event
trace — before any HTTP request is issued through the executor. -/
theorem generate_preconditions (env : Env) (ua purl : String) (mt : Int) :
    (∀ g : Option CookieFun,
        Generate env ⟨ua, purl, none, g, mt⟩
          = (.panicked "akamai-sdk-go: nil DoHttpReqFunc passed to Generate", []))
      ∧ (∀ f : HttpFun,
          Generate env ⟨ua, purl, some f, none, mt⟩
            = (.panicked "akamai-sdk-go: nil GetCookieFunc passed to Generate", []))
      ∧ (∀ (f : HttpFun) (g : CookieFun), mt ≤ 0 →
          Generate env ⟨ua, purl, some f, some g, mt⟩
            = (.panicked "akamai-sdk-go: maxTries <= 0", []))
      ∧ (∀ (f : HttpFun) (g : CookieFun) (u : GoURL), 0 < mt →
          env.urlParse purl = .ok u → u.scheme = "" →
          Generate env ⟨ua, purl, some f, some g, mt⟩
            = (.earlyError .invalidPageURL, []))
      ∧ (∀ (f : HttpFun) (g : CookieFun) (msg : String), 0 < mt →
          env.urlParse purl = .error msg →
          Generate env ⟨ua, purl, some f, some g, mt⟩
            = (.earlyError (.urlParseError msg), [])) := by
  refine ⟨fun g => rfl, fun f => rfl, fun f g h => ?_, fun f g u hmt hp hs => ?_,
    fun f g msg hmt hp => ?_⟩
  · simp [Generate, if_pos h]
  · simp only [Generate, hp]
    rw [if_neg (by omega)]
    simp [GoURL.IsAbs, hs]
  · simp only [Generate, hp]
    rw [if_neg (by omega)]

/-- C7 witness: with a parser that reports the relative URL `"/rel"` as
scheme-less, `Generate` returns `ErrInvalidPageURL` and makes no call. -/
theorem generate_preconditions_witness :
    Generate
        ⟨fun _ _ => .error (.api ""), fun _ _ => .error (.api ""),
         fun _ _ => .error (.api ""), fun _ => .ok ⟨"", ""⟩⟩
        ⟨"", "/rel", some (fun _ _ _ _ _ => (200, "", none)),
         some (fun _ _ _ => ""), 1⟩
      = (.earlyError .invalidPageURL, []) :=
  (generate_preconditions _ "" "/rel" 1).2.2.2.1 _ _ ⟨"", ""⟩ (by norm_num) rfl rfl

/-- C8: if the initial page GET returns a transport error or any non-200
status, `Generate` returns immediately with `errors.Join(HttpOpError{Op:
OpGetPage}, cause)` — the cause being the transport error or a
`BadStatusCodeError` carrying the status — and the event trace consists of
that single page GET: no branch runs, and no further executor, cookie or
remote-delegate call occurs. -/
theorem generate_pageFetch_failure (env : Env) (ua purl : String)
    (f : HttpFun) (g : CookieFun) (mt : Int) (u : GoURL) :
    (∀ (st : Int) (body : String), 0 < mt → env.urlParse purl = .ok u →
        u.IsAbs = true →
        f [] .opGetPage purl "GET" none = (st, body, none) → st ≠ 200 →
        Generate env ⟨ua, purl, some f, some g, mt⟩
          = (.earlyError (.join2 (.httpOpError .opGetPage) (.badStatusCode st)),
             [.httpReq .opGetPage purl "GET" none st body none]))
      ∧ (∀ (st : Int) (body e : String), 0 < mt → env.urlParse purl = .ok u →
          u.IsAbs = true →
          f [] .opGetPage purl "GET" none = (st, body, some e) →
          Generate env ⟨ua, purl, some f, some g, mt⟩
            = (.earlyError (.join2 (.httpOpError .opGetPage) (.transport e)),
               [.httpReq .opGetPage purl "GET" none st body (some e)])) := by
  constructor
  · intro st body hmt hp habs hf hst
    simp only [Generate, hp]
    rw [if_neg (by omega)]
    simp only [habs, Bool.true_eq_false, if_false, hf]
    rw [if_neg hst]
  · intro st body e hmt hp habs hf
    simp only [Generate, hp]
    rw [if_neg (by omega)]
    simp only [habs, Bool.true_eq_false, if_false, hf]

/-- C8 witness: with a page fetch answering status 403, `Generate` returns
the joined page-fetch error and its trace is exactly that one GET. -/
theorem generate_pageFetch_failure_witness :
    Generate
        ⟨fun _ _ => .error (.api ""), fun _ _ => .error (.api ""),
         fun _ _ => .error (.api ""), fun _ => .ok ⟨"http", "x.example"⟩⟩
        ⟨"", "http://x.example/", some (fun _ _ _ _ _ => (403, "denied", none)),
         some (fun _ _ _ => ""), 2⟩
      = (.earlyError (.join2 (.httpOpError .opGetPage) (.badStatusCode 403)),
         [.httpReq .opGetPage "http://x.example/" "GET" none 403 "denied" none]) :=
  (generate_pageFetch_failure _ "" "http://x.example/" _ _ 2 ⟨"http", "x.example"⟩).1
    403 "denied" (by norm_num) rfl rfl rfl (by norm_num)

/-- C2: in `Generate`'s pixel branch, when the GET of the pixel challenge
script answers 404 with no transport error, the branch terminates as
success — no error is collected and no further pixel-branch call (script
variable extraction, remote payload generation, payload POST) occurs; any
other non-200 status on that fetch collects exactly a `BadStatusCodeError`
carrying the status and terminates the branch as failure, likewise making
no further call. -/
theorem pixelBranch_scriptFetch_status (env : Env) (doReq : HttpFun)
    (ua pageBody : String) (hist : List Event) (surl purl : String)
    (hv st : Int) (sb : String)
    (hurl : GetPixelChallengeScriptURL pageBody.data = some (surl, purl))
    (hvar : GetPixelChallengeHtmlVar pageBody.data = .ok hv)
    (hreq : doReq hist .opGetPixelChallengeScript surl "GET" none = (st, sb, none)) :
    (st = 404 →
        pixelBranch env doReq ua pageBody hist
          = ([.httpReq .opGetPixelChallengeScript surl "GET" none st sb none], []))
      ∧ (st ≠ 200 → st ≠ 404 →
        pixelBranch env doReq ua pageBody hist
          = ([.httpReq .opGetPixelChallengeScript surl "GET" none st sb none],
             [.badStatusCode st])) := by
  constructor
  · intro h404
    subst h404
    simp only [pixelBranch, hurl, hvar, hreq]
    norm_num
  · intro h200 h404
    simp only [pixelBranch, hurl, hvar, hreq]
    rw [if_neg h200, if_neg h404]

/-- C2 witness: on a page carrying both pixel markers, a pixel-script fetch
answering 404 ends the branch with no error and no further call. -/
theorem pixelBranch_scriptFetch_status_witness :
    pixelBranch
        ⟨fun _ _ => .error (.api ""), fun _ _ => .error (.api ""),
         fun _ _ => .error (.api ""), fun _ => .error ""⟩
        (fun _ _ _ _ _ => (404, "", none)) ""
        "src=\"https://x.com/akam/12/ab\" bazadebezolkohpepadr=\"500\"" []
      = ([.httpReq .opGetPixelChallengeScript "https://x.com/akam/12/ab"
            "GET" none 404 "" none], []) :=
  (pixelBranch_scriptFetch_status _ _ ""
      "src=\"https://x.com/akam/12/ab\" bazadebezolkohpepadr=\"500\"" []
      "https://x.com/akam/12/ab" "https://x.com/akam/12/pixel_ab" 500 404 ""
      rfl rfl rfl).1 rfl

theorem sensorLoop_postsSpliced (env : Env) (doReq : HttpFun) (gc : CookieFun)
    (u : GoURL) (ua purl surl : String) (version : Version) (sv : String) :
    ∀ (fuel : Nat) (i : Int) (hist : List Event) (prev : Option Event),
      postsSpliced surl prev
        (sensorLoop env doReq gc u ua purl surl version sv fuel i hist).1 = true := by
  intro fuel
  induction fuel with
  | zero => intro i hist prev; rfl
  | succ n ih =>
    intro i hist prev
    by_cases hv : version = Version.v2
    · simp only [sensorLoop, if_pos hv]
      split
      · simp_all [postsSpliced]
      · split
        · simp_all [postsSpliced]
        · split
          · simp_all [postsSpliced]
          · simp_all [postsSpliced, ih]
    · simp only [sensorLoop, if_neg hv]
      split
      · simp_all [postsSpliced]
      · split
        · simp_all [postsSpliced]
        · split
          · simp_all [postsSpliced]
          · simp_all [postsSpliced, ih]

/-- C3: in every iteration of `Generate`'s sensor retry loop, the body
POSTed to the script URL is exactly the literal splice
`\x7b"sensor_data":"<payload>"\x7d` (`sensorDataBody`) of the payload the
remote delegate returned in the immediately preceding call — verbatim, with
no JSON encoding applied — as `postsSpliced` checks for every sensor-data
POST in the branch's trace, for arbitrary oracles (hence arbitrary payload
contents, including characters a JSON encoder would escape). -/
theorem sensorBranch_posts_spliced (env : Env) (doReq : HttpFun) (gc : CookieFun)
    (u : GoURL) (ua purl pageBody : String) (mt : Int) (hist : List Event) :
    postsSpliced (u.scheme ++ "://" ++ u.host ++ GetScriptPath pageBody.data) none
      (sensorBranch env doReq gc u ua purl pageBody mt hist).1 = true := by
  simp only [sensorBranch]
  split
  · rfl
  · split
    · simp [postsSpliced]
    · split
      · split
        · split
          · simp [postsSpliced]
          · simp [postsSpliced, sensorLoop_postsSpliced]
        · simp [postsSpliced, sensorLoop_postsSpliced]
      · simp [postsSpliced]

/-- A concrete full run of the sensor branch: one successful iteration on a
version-1.75 script, with a delegate payload containing a raw quote.  The
POSTed body is the verbatim splice (still containing the raw quote — the
shape a JSON encoder would have escaped), and the POST's 201 status is not
inspected: the branch finishes with no error. -/
theorem sensorBranch_concrete_run :
    sensorBranch
        ⟨fun _ _ => .ok ⟨"PAY\"LOAD"⟩, fun _ _ => .error (.api ""),
         fun _ _ => .error (.api ""), fun _ => .error ""⟩
        (fun _ op _ _ _ =>
          if op = .opGetSdkScript then (200, "var _acxj", none) else (201, "", none))
        (fun _ _ _ => "")
        ⟨"http", "h"⟩ "UA" "http://h/" "<script type=\"text/javascript\" src=\"/a\">" 1 []
      = ([.httpReq .opGetSdkScript "http://h/a" "GET" none 200 "var _acxj" none,
          .cookieRead "_abck" "",
          .apiSensor ⟨"UA", .v175, "http://h/", "", "", ""⟩ (.ok ⟨"PAY\"LOAD"⟩),
          .httpReq .opPostSensorData "http://h/a" "POST"
            (some "\x7b\"sensor_data\":\"PAY\"LOAD\"\x7d") 201 "" none,
          .cookieRead "_abck" ""], []) := by
  rfl

end Akamai
